import Mathlib

/-!
Shallow embedding of the social-events REST backend (an Express + MongoDB
CRUD service).  The three collections (events, joinedEvents, users) are
modelled as lists of records; each request handler is a pure function from
the database state (plus the request inputs, the current time `now : Int`
in epoch milliseconds, the store-generated id of a fresh document, and the
JavaScript date parser abstracted as `parseDate : String → Option Int`,
where `none` stands for `NaN`) to a response together with the new database
state.  JavaScript truthiness checks `!field` on request string fields are
modelled as equality with the empty string.  The store-id syntax check
`ObjectId.isValid` is modelled for its canonical string form: 24
hexadecimal characters.
-/

namespace SocialEvents

/-- An `events` collection document, as inserted by `POST /events`. -/
structure Event where
  _id : String
  title : String
  description : String
  eventType : String
  thumbnail : String
  location : String
  eventDate : Int
  creatorEmail : String
  createdAt : Int
deriving Repr, DecidableEq

/-- A `joinedEvents` collection document, as inserted by `POST /join-event`:
the pair (eventId, userEmail) plus a denormalized snapshot of the event. -/
structure Join where
  _id : String
  eventId : String
  userEmail : String
  joinedAt : Int
  eventTitle : String
  eventType : String
  thumbnail : String
  location : String
  eventDate : Int
  creatorEmail : String
deriving Repr, DecidableEq

/-- A `users` collection document, as inserted by `POST /users/sync`. -/
structure User where
  email : String
  displayName : String
  photoURL : String
  role : String
  createdAt : Int
  updatedAt : Int
deriving Repr, DecidableEq

/-- The state of the three persistent collections. -/
structure DB where
  events : List Event
  joins : List Join
  users : List User
deriving Repr, DecidableEq

/-- A handler response: success payload, or an HTTP status code with the
handler's `message` string. -/
inductive Resp (α : Type) where
  | ok : α → Resp α
  | err : Nat → String → Resp α
deriving Repr, DecidableEq

def Resp.isOk {α : Type} : Resp α → Bool
  | .ok _ => true
  | .err _ _ => false

/-- The message of the duplicate-join branch of `POST /join-event`; the spec
taxonomy calls this failure `Conflict` (it is sent with HTTP status 400). -/
def conflictMessage : String := "You have already joined this event."

/-- Spec taxonomy: `Forbidden` responses are the HTTP 403 ones. -/
def Resp.isForbidden {α : Type} : Resp α → Bool
  | .ok _ => false
  | .err code _ => code == 403

/-- Spec taxonomy: `NotFound` responses are the HTTP 404 ones. -/
def Resp.isNotFound {α : Type} : Resp α → Bool
  | .ok _ => false
  | .err code _ => code == 404

/-- Spec taxonomy: `Conflict` is the duplicate-join 400 response. -/
def Resp.isConflict {α : Type} : Resp α → Bool
  | .ok _ => false
  | .err code m => code == 400 && m == conflictMessage

/-- Spec taxonomy: `ValidationError` responses are the HTTP 400 ones other
than the duplicate-join `Conflict`. -/
def Resp.isValidation {α : Type} : Resp α → Bool
  | .ok _ => false
  | .err code m => code == 400 && !(m == conflictMessage)

/-- Hexadecimal digit check used by the ObjectId syntax model. -/
def isHexChar (c : Char) : Bool :=
  c.isDigit || (('a' ≤ c) && (c ≤ 'f')) || (('A' ≤ c) && (c ≤ 'F'))

/-- `ObjectId.isValid` modelled for canonical string ids: exactly 24 hex
characters (ids generated by the store always have this form). -/
def isValidObjectId (s : String) : Bool :=
  (s.length == 24) && s.toList.all isHexChar

/-- The `sort({ eventDate: 1 })` order on events. -/
def eventDateLE (a b : Event) : Prop := a.eventDate ≤ b.eventDate

instance : DecidableRel eventDateLE := fun a b =>
  inferInstanceAs (Decidable (a.eventDate ≤ b.eventDate))

instance : IsTotal Event eventDateLE :=
  ⟨fun a b => Int.le_total a.eventDate b.eventDate⟩

instance : IsTrans Event eventDateLE :=
  ⟨fun _ _ _ h1 h2 => le_trans h1 h2⟩

/-- The `sort({ eventDate: 1 })` order on join snapshots. -/
def joinDateLE (a b : Join) : Prop := a.eventDate ≤ b.eventDate

instance : DecidableRel joinDateLE := fun a b =>
  inferInstanceAs (Decidable (a.eventDate ≤ b.eventDate))

instance : IsTotal Join joinDateLE :=
  ⟨fun a b => Int.le_total a.eventDate b.eventDate⟩

instance : IsTrans Join joinDateLE :=
  ⟨fun _ _ _ h1 h2 => le_trans h1 h2⟩

/-- Request body of `POST /events`. -/
structure EventBody where
  title : String
  description : String
  eventType : String
  thumbnail : String
  location : String
  eventDate : String
  creatorEmail : String
deriving Repr, DecidableEq

/-- Request body of `PUT /events/:id`. -/
structure UpdateBody where
  title : String
  description : String
  eventType : String
  thumbnail : String
  location : String
  eventDate : String
  requestorEmail : String
deriving Repr, DecidableEq

/-- `POST /events`: presence check on the seven fields, date parse check,
future-date check, then `insertOne`. -/
def createEvent (db : DB) (now : Int) (parseDate : String → Option Int)
    (newId : String) (b : EventBody) : Resp String × DB :=
  if b.title = "" ∨ b.description = "" ∨ b.eventType = "" ∨ b.thumbnail = "" ∨
      b.location = "" ∨ b.eventDate = "" ∨ b.creatorEmail = "" then
    (.err 400 "All fields are required.", db)
  else
    match parseDate b.eventDate with
    | none => (.err 400 "Invalid event date.", db)
    | some d =>
      if d ≤ now then (.err 400 "Event date must be a future date.", db)
      else
        (.ok newId,
          { db with events := db.events ++
              [{ _id := newId, title := b.title, description := b.description,
                 eventType := b.eventType, thumbnail := b.thumbnail,
                 location := b.location, eventDate := d,
                 creatorEmail := b.creatorEmail, createdAt := now }] })

/-- `GET /events`: all events, `sort({ eventDate: 1 })`. -/
def listEvents (db : DB) : List Event :=
  List.insertionSort eventDateLE db.events

/-- `GET /events/upcoming`: events with `eventDate > now`, sorted ascending. -/
def listUpcomingEvents (db : DB) (now : Int) : List Event :=
  List.insertionSort eventDateLE
    (db.events.filter (fun e => decide (now < e.eventDate)))

/-- `GET /events/:id`: id syntax check, then `findOne({_id})`. -/
def getEvent (db : DB) (id : String) : Resp Event :=
  if !isValidObjectId id then .err 400 "Invalid event id."
  else
    match db.events.find? (fun e => e._id == id) with
    | none => .err 404 "Event not found."
    | some e => .ok e

/-- `updateOne` on the events collection: apply `f` to the first document
whose `_id` matches, returning the new list and the matched count. -/
def updateFirstEvent : List Event → String → (Event → Event) → List Event × Nat
  | [], _, _ => ([], 0)
  | e :: rest, i, f =>
    if e._id == i then (f e :: rest, 1)
    else
      let r := updateFirstEvent rest i f
      (e :: r.1, r.2)

/-- `PUT /events/:id`: id syntax check, requestorEmail presence, existence,
creator-only authorization, field presence, date checks, then `updateOne`
with `$set` on the six mutable fields. -/
def updateEvent (db : DB) (now : Int) (parseDate : String → Option Int)
    (id : String) (b : UpdateBody) : Resp Nat × DB :=
  if !isValidObjectId id then (.err 400 "Invalid event id.", db)
  else if b.requestorEmail = "" then (.err 400 "requestorEmail is required.", db)
  else
    match db.events.find? (fun e => e._id == id) with
    | none => (.err 404 "Event not found.", db)
    | some existing =>
      if existing.creatorEmail ≠ b.requestorEmail then
        (.err 403 "You are not allowed to update this event.", db)
      else if b.title = "" ∨ b.description = "" ∨ b.eventType = "" ∨
          b.thumbnail = "" ∨ b.location = "" ∨ b.eventDate = "" then
        (.err 400 "All fields are required.", db)
      else
        match parseDate b.eventDate with
        | none => (.err 400 "Invalid event date.", db)
        | some d =>
          if d ≤ now then (.err 400 "Event date must be a future date.", db)
          else
            (.ok (updateFirstEvent db.events id (fun e =>
                { e with title := b.title, description := b.description,
                         eventType := b.eventType, thumbnail := b.thumbnail,
                         location := b.location, eventDate := d })).2,
             { db with events := (updateFirstEvent db.events id (fun e =>
                { e with title := b.title, description := b.description,
                         eventType := b.eventType, thumbnail := b.thumbnail,
                         location := b.location, eventDate := d })).1 })

/-- `deleteOne({_id})` on the events collection: remove the first document
whose `_id` matches. -/
def deleteFirstEvent : List Event → String → List Event
  | [], _ => []
  | e :: rest, i => if e._id == i then rest else e :: deleteFirstEvent rest i

/-- `DELETE /events/:id`: id syntax check, requestorEmail presence,
existence, creator-only authorization, then `deleteOne` on events followed
by `deleteMany({eventId})` on joinedEvents (cascade). -/
def deleteEvent (db : DB) (id : String) (requestorEmail : String) :
    Resp Unit × DB :=
  if !isValidObjectId id then (.err 400 "Invalid event id.", db)
  else if requestorEmail = "" then (.err 400 "requestorEmail is required.", db)
  else
    match db.events.find? (fun e => e._id == id) with
    | none => (.err 404 "Event not found.", db)
    | some existing =>
      if existing.creatorEmail ≠ requestorEmail then
        (.err 403 "You are not allowed to delete this event.", db)
      else
        (.ok (),
         { db with events := deleteFirstEvent db.events id,
                   joins := db.joins.filter (fun j => !(j.eventId == id)) })

/-- The join document inserted by `POST /join-event`: the pair plus the
denormalized snapshot of the event's display fields at join time. -/
def joinSnapshot (newId : String) (now : Int) (userEmail : String)
    (event : Event) : Join :=
  { _id := newId, eventId := event._id, userEmail := userEmail,
    joinedAt := now, eventTitle := event.title, eventType := event.eventType,
    thumbnail := event.thumbnail, location := event.location,
    eventDate := event.eventDate, creatorEmail := event.creatorEmail }

/-- `POST /join-event`: presence checks, id syntax check, event existence,
duplicate-join check on (eventId, userEmail), then `insertOne` of a join
document carrying a snapshot of the event's display fields. -/
def joinEvent (db : DB) (now : Int) (newId : String)
    (eventId : String) (userEmail : String) : Resp String × DB :=
  if eventId = "" ∨ userEmail = "" then
    (.err 400 "eventId and userEmail are required.", db)
  else if !isValidObjectId eventId then (.err 400 "Invalid eventId.", db)
  else
    match db.events.find? (fun e => e._id == eventId) with
    | none => (.err 404 "Event not found.", db)
    | some event =>
      match db.joins.find? (fun j =>
          j.eventId == event._id && j.userEmail == userEmail) with
      | some _ => (.err 400 conflictMessage, db)
      | none =>
        (.ok newId,
         { db with joins := db.joins ++ [joinSnapshot newId now userEmail event] })

/-- `GET /joined?email=`: presence check, then the user's joins sorted by
the snapshot `eventDate`. -/
def listJoinedEvents (db : DB) (userEmail : String) : Resp (List Join) :=
  if userEmail = "" then .err 400 "User email is required."
  else
    .ok (List.insertionSort joinDateLE
      (db.joins.filter (fun j => j.userEmail == userEmail)))

/-- The public projection of a user returned by the user endpoints. -/
structure UserProj where
  email : String
  displayName : String
  photoURL : String
  role : String
deriving Repr, DecidableEq

def User.proj (u : User) : UserProj :=
  { email := u.email, displayName := u.displayName,
    photoURL := u.photoURL, role := u.role }

/-- `updateOne` on the users collection: apply `f` to the first document
whose `email` matches, returning the new list and the matched count. -/
def updateFirstUser : List User → String → (User → User) → List User × Nat
  | [], _, _ => ([], 0)
  | u :: rest, em, f =>
    if u.email == em then (f u :: rest, 1)
    else
      let r := updateFirstUser rest em f
      (u :: r.1, r.2)

/-- `POST /users/sync`: create the user with role "user" if absent;
otherwise `$set` `updatedAt` plus `displayName`/`photoURL` only when the
supplied values are non-empty (role is never in the update document). -/
def syncUser (db : DB) (now : Int) (email displayName photoURL : String) :
    Resp UserProj × DB :=
  if email = "" then (.err 400 "Email is required.", db)
  else
    match db.users.find? (fun u => u.email == email) with
    | none =>
      (.ok { email := email, displayName := displayName,
             photoURL := photoURL, role := "user" },
       { db with users := db.users ++
          [{ email := email, displayName := displayName,
             photoURL := photoURL, role := "user",
             createdAt := now, updatedAt := now }] })
    | some _ =>
      (match (updateFirstUser db.users email (fun u =>
          { u with updatedAt := now,
                   displayName := if displayName ≠ "" then displayName
                                  else u.displayName,
                   photoURL := if photoURL ≠ "" then photoURL
                               else u.photoURL })).1.find?
          (fun u => u.email == email) with
       | some u => .ok u.proj
       | none => .err 500 "Failed to sync user.",
       { db with users := (updateFirstUser db.users email (fun u =>
          { u with updatedAt := now,
                   displayName := if displayName ≠ "" then displayName
                                  else u.displayName,
                   photoURL := if photoURL ≠ "" then photoURL
                               else u.photoURL })).1 })

/-- `PATCH /users/:email/role`: role enum check, admin authorization on the
requestor, then `updateOne` with `$set {role, updatedAt}`; a matched count
of zero yields 404. -/
def setUserRole (db : DB) (now : Int)
    (targetEmail role requestorEmail : String) : Resp Unit × DB :=
  if role = "" ∨ ¬(role = "user" ∨ role = "admin") then
    (.err 400 "Valid role (user or admin) is required.", db)
  else
    match db.users.find? (fun u => u.email == requestorEmail) with
    | none => (.err 403 "Only admins can update user roles.", db)
    | some requestor =>
      if requestor.role ≠ "admin" then
        (.err 403 "Only admins can update user roles.", db)
      else
        if (updateFirstUser db.users targetEmail (fun u =>
            { u with role := role, updatedAt := now })).2 = 0 then
          (.err 404 "User not found.",
           { db with users := (updateFirstUser db.users targetEmail (fun u =>
              { u with role := role, updatedAt := now })).1 })
        else
          (.ok (),
           { db with users := (updateFirstUser db.users targetEmail (fun u =>
              { u with role := role, updatedAt := now })).1 })

/-- The payload of `GET /stats`. -/
structure Stats where
  totalEvents : Nat
  totalJoined : Nat
  totalUsers : Nat
deriving Repr, DecidableEq

/-- `GET /stats` in the `distinct()`-based revision: distinct creator
emails, distinct participant emails, size of the JavaScript `Set` of their
concatenation. -/
def statsDistinct (db : DB) : Stats :=
  { totalEvents := db.events.length,
    totalJoined := db.joins.length,
    totalUsers :=
      (((db.events.map (fun e => e.creatorEmail)).dedup ++
        (db.joins.map (fun j => j.userEmail)).dedup).dedup).length }

/-- `GET /stats` in the aggregate-based revision: `$group` on the email
field gives the distinct values, then `.filter(Boolean)` drops falsy values
(the empty string, in this model) before the `Set` union is taken. -/
def statsAgg (db : DB) : Stats :=
  { totalEvents := db.events.length,
    totalJoined := db.joins.length,
    totalUsers :=
      ((((db.events.map (fun e => e.creatorEmail)).dedup.filter
          (fun s => !(s == ""))) ++
        ((db.joins.map (fun j => j.userEmail)).dedup.filter
          (fun s => !(s == "")))).dedup).length }

/-- From the spec: "count of distinct emails appearing as either an Event
creatorEmail or a Join userEmail (set union, case-sensitive exact match)".
Stated independently of the code, for comparison with the two `GET /stats`
implementations. -/
def specTotalUsers (db : DB) : Nat :=
  ((db.events.map (fun e => e.creatorEmail)).toFinset ∪
   (db.joins.map (fun j => j.userEmail)).toFinset).card

/-- The §3 invariant: at most one Join per (eventId, userEmail) pair. -/
def atMostOneJoinPerPair (joins : List Join) : Prop :=
  joins.Pairwise (fun a b => ¬(a.eventId = b.eventId ∧ a.userEmail = b.userEmail))

/-! Concrete fixtures used by witnesses and counterexamples. -/

def oid1 : String := "aaaaaaaaaaaaaaaaaaaaaaaa"

def oid2 : String := "bbbbbbbbbbbbbbbbbbbbbbbb"

def oid3 : String := "cccccccccccccccccccccccc"

def ev1 : Event :=
  { _id := oid1, title := "t", description := "d", eventType := "ty",
    thumbnail := "th", location := "loc", eventDate := 100,
    creatorEmail := "alice@x.com", createdAt := 0 }

def join1 : Join :=
  { _id := oid2, eventId := oid1, userEmail := "carol@x.com", joinedAt := 7,
    eventTitle := "t", eventType := "ty", thumbnail := "th", location := "loc",
    eventDate := 100, creatorEmail := "alice@x.com" }

def emptyDb : DB := { events := [], joins := [], users := [] }

def dbE : DB := { events := [ev1], joins := [], users := [] }

def dbEJ : DB := { events := [ev1], joins := [join1], users := [] }

def dbEmptyEmail : DB :=
  { events := [{ ev1 with creatorEmail := "" }], joins := [], users := [] }

def adminU : User :=
  { email := "root@x.com", displayName := "R", photoURL := "", role := "admin",
    createdAt := 0, updatedAt := 0 }

def plainU : User :=
  { email := "u@x.com", displayName := "U", photoURL := "p", role := "user",
    createdAt := 0, updatedAt := 0 }

def dbU : DB := { events := [], joins := [], users := [adminU, plainU] }

def bodyBob : UpdateBody :=
  { title := "t2", description := "d2", eventType := "ty2", thumbnail := "th2",
    location := "loc2", eventDate := "2030-01-01", requestorEmail := "bob@x.com" }

def bodyAlice : UpdateBody := { bodyBob with requestorEmail := "alice@x.com" }

def bodyEmptyReq : UpdateBody := { bodyBob with requestorEmail := "" }

def bcW : EventBody :=
  { title := "t", description := "d", eventType := "ty", thumbnail := "th",
    location := "loc", eventDate := "2030-01-01",
    creatorEmail := "alice@x.com" }

/-! Helper lemmas about the list-level store operations. -/

theorem dedup_toFinset {α : Type} [DecidableEq α] (l : List α) :
    l.dedup.toFinset = l.toFinset := by
  ext a
  simp [List.mem_dedup]

theorem valid_id_ne_empty {s : String} (h : isValidObjectId s = true) :
    s ≠ "" := by
  intro hs
  subst hs
  exact absurd h (by decide)

theorem updateFirstUser_none (l : List User) (em : String) (f : User → User)
    (h : l.find? (fun u => u.email == em) = none) :
    updateFirstUser l em f = (l, 0) := by
  induction l with
  | nil => rfl
  | cons u rest ih =>
    cases hb : (u.email == em) with
    | true => simp [List.find?, hb] at h
    | false =>
      simp only [List.find?, hb] at h
      simp [updateFirstUser, hb, ih h]

theorem updateFirstUser_find? (l : List User) (em : String) (f : User → User)
    (hf : ∀ u, (f u).email = u.email) :
    (updateFirstUser l em f).1.find? (fun u => u.email == em) =
      (l.find? (fun u => u.email == em)).map f := by
  induction l with
  | nil => rfl
  | cons u rest ih =>
    cases hb : (u.email == em) with
    | true =>
      have hfb : ((f u).email == em) = true := by rw [hf u]; exact hb
      simp [updateFirstUser, hb, List.find?, hfb]
    | false =>
      simp [updateFirstUser, hb, List.find?, ih]

theorem find?_append_of_none {α : Type} (l : List α) (x : α) (p : α → Bool)
    (h : l.find? p = none) (hx : p x = true) :
    (l ++ [x]).find? p = some x := by
  rw [List.find?_append, h]
  simp [List.find?, hx]

theorem updateFirstEvent_decomp (l : List Event) (i : String)
    (f : Event → Event) (e : Event)
    (h : l.find? (fun x => x._id == i) = some e) :
    ∃ l1 l2, l = l1 ++ e :: l2 ∧
      updateFirstEvent l i f = (l1 ++ f e :: l2, 1) := by
  induction l with
  | nil => simp at h
  | cons x rest ih =>
    cases hb : (x._id == i) with
    | true =>
      simp only [List.find?, hb] at h
      have hxe : x = e := by simpa using h
      subst hxe
      refine ⟨[], rest, rfl, ?_⟩
      simp [updateFirstEvent, hb]
    | false =>
      simp only [List.find?, hb] at h
      obtain ⟨l1, l2, hl, hu⟩ := ih h
      refine ⟨x :: l1, l2, by rw [hl]; rfl, ?_⟩
      simp [updateFirstEvent, hb, hu]

theorem deleteFirstEvent_no_id (l : List Event) (i : String)
    (hnd : (l.map (fun x => x._id)).Nodup) :
    ∀ x ∈ deleteFirstEvent l i, x._id ≠ i := by
  induction l with
  | nil => simp [deleteFirstEvent]
  | cons e rest ih =>
    rw [List.map_cons, List.nodup_cons] at hnd
    intro x hx
    cases hb : (e._id == i) with
    | true =>
      have hei : e._id = i := by simpa using hb
      have hxr : x ∈ rest := by simpa [deleteFirstEvent, hb] using hx
      intro hxi
      have hmem : x._id ∈ List.map (fun y => y._id) rest :=
        List.mem_map_of_mem _ hxr
      rw [hxi, ← hei] at hmem
      exact hnd.1 hmem
    | false =>
      have hx2 : x = e ∨ x ∈ deleteFirstEvent rest i := by
        simpa [deleteFirstEvent, hb] using hx
      rcases hx2 with rfl | hx2
      · simpa using hb
      · exact ih hnd.2 x hx2

/-- A successful `POST /events` parsed the supplied date to some `d > now`
and appended exactly one event document, with `eventDate = d` and
`createdAt = now`. -/
theorem createEvent_shape (db : DB) (now : Int)
    (parseDate : String → Option Int) (newId : String) (b : EventBody)
    (hsucc : (createEvent db now parseDate newId b).1.isOk = true) :
    ∃ d, parseDate b.eventDate = some d ∧ now < d ∧
      (createEvent db now parseDate newId b).2.events = db.events ++
        [{ _id := newId, title := b.title, description := b.description,
           eventType := b.eventType, thumbnail := b.thumbnail,
           location := b.location, eventDate := d,
           creatorEmail := b.creatorEmail, createdAt := now }] := by
  by_cases hp : (b.title = "" ∨ b.description = "" ∨ b.eventType = "" ∨
      b.thumbnail = "" ∨ b.location = "" ∨ b.eventDate = "" ∨
      b.creatorEmail = "")
  · simp [createEvent, hp, Resp.isOk] at hsucc
  · cases hd : parseDate b.eventDate with
    | none => simp [createEvent, hp, hd, Resp.isOk] at hsucc
    | some d =>
      by_cases hle : d ≤ now
      · simp [createEvent, hp, hd, hle, Resp.isOk] at hsucc
      · exact ⟨d, rfl, Int.not_le.mp hle, by simp [createEvent, hp, hd, hle]⟩

/-- A successful `PUT /events/:id` found an event for `id`, was called by
its creator, parsed the date to some `d > now`, and the new state is the
`updateOne` of the six mutable fields on the first matching document. -/
theorem updateEvent_shape (db : DB) (now : Int)
    (parseDate : String → Option Int) (id : String) (b : UpdateBody)
    (hsucc : (updateEvent db now parseDate id b).1.isOk = true) :
    ∃ e d, db.events.find? (fun x => x._id == id) = some e ∧
      parseDate b.eventDate = some d ∧ now < d ∧
      b.requestorEmail = e.creatorEmail ∧
      (updateEvent db now parseDate id b).2.events =
        (updateFirstEvent db.events id (fun x =>
          { x with title := b.title, description := b.description,
                   eventType := b.eventType, thumbnail := b.thumbnail,
                   location := b.location, eventDate := d })).1 ∧
      (updateEvent db now parseDate id b).2.joins = db.joins ∧
      (updateEvent db now parseDate id b).2.users = db.users := by
  by_cases hv : isValidObjectId id = true
  · by_cases hr : b.requestorEmail = ""
    · simp [updateEvent, hv, hr, Resp.isOk] at hsucc
    · cases hf : db.events.find? (fun x => x._id == id) with
      | none => simp [updateEvent, hv, hr, hf, Resp.isOk] at hsucc
      | some e =>
        by_cases hc : e.creatorEmail ≠ b.requestorEmail
        · simp [updateEvent, hv, hr, hf, hc, Resp.isOk] at hsucc
        · by_cases hp : (b.title = "" ∨ b.description = "" ∨
              b.eventType = "" ∨ b.thumbnail = "" ∨ b.location = "" ∨
              b.eventDate = "")
          · simp [updateEvent, hv, hr, hf, hc, hp, Resp.isOk] at hsucc
          · cases hd : parseDate b.eventDate with
            | none => simp [updateEvent, hv, hr, hf, hc, hp, hd, Resp.isOk] at hsucc
            | some d =>
              by_cases hle : d ≤ now
              · simp [updateEvent, hv, hr, hf, hc, hp, hd, hle, Resp.isOk] at hsucc
              · exact ⟨e, d, rfl, rfl, Int.not_le.mp hle, (not_ne_iff.mp hc).symm,
                  by simp [updateEvent, hv, hr, hf, hc, hp, hd, hle],
                  by simp [updateEvent, hv, hr, hf, hc, hp, hd, hle],
                  by simp [updateEvent, hv, hr, hf, hc, hp, hd, hle]⟩
  · simp [updateEvent, hv, Resp.isOk] at hsucc

/-- A successful `DELETE /events/:id` found an event for `id`, was called
by its creator, and the new state is `deleteOne` on events followed by the
cascade `deleteMany` on joinedEvents. -/
theorem deleteEvent_shape (db : DB) (id requestorEmail : String)
    (hsucc : (deleteEvent db id requestorEmail).1.isOk = true) :
    ∃ e, db.events.find? (fun x => x._id == id) = some e ∧
      e.creatorEmail = requestorEmail ∧
      (deleteEvent db id requestorEmail).2.events =
        deleteFirstEvent db.events id ∧
      (deleteEvent db id requestorEmail).2.joins =
        db.joins.filter (fun j => !(j.eventId == id)) ∧
      (deleteEvent db id requestorEmail).2.users = db.users := by
  by_cases hv : isValidObjectId id = true
  · by_cases hr : requestorEmail = ""
    · simp [deleteEvent, hv, hr, Resp.isOk] at hsucc
    · cases hf : db.events.find? (fun x => x._id == id) with
      | none => simp [deleteEvent, hv, hr, hf, Resp.isOk] at hsucc
      | some e =>
        by_cases hc : e.creatorEmail ≠ requestorEmail
        · simp [deleteEvent, hv, hr, hf, hc, Resp.isOk] at hsucc
        · exact ⟨e, rfl, not_ne_iff.mp hc,
            by simp [deleteEvent, hv, hr, hf, hc],
            by simp [deleteEvent, hv, hr, hf, hc],
            by simp [deleteEvent, hv, hr, hf, hc]⟩
  · simp [deleteEvent, hv, Resp.isOk] at hsucc

/-- With store-unique ids, `findOne({_id})` resolves a stored event to
itself. -/
theorem find?_of_mem_nodup (l : List Event) (e : Event)
    (hnd : (l.map (fun x => x._id)).Nodup) (he : e ∈ l) :
    l.find? (fun x => x._id == e._id) = some e := by
  induction l with
  | nil => cases he
  | cons x rest ih =>
    rw [List.map_cons, List.nodup_cons] at hnd
    rcases List.mem_cons.mp he with rfl | hr
    · simp [List.find?]
    · have hx : (x._id == e._id) = false := by
        refine beq_eq_false_iff_ne.mpr ?_
        intro contra
        refine hnd.1 ?_
        rw [contra]
        exact List.mem_map_of_mem _ hr
      simp only [List.find?, hx]
      exact ih hnd.2 hr

/-- A successful `POST /join-event` found the event, found no join for the
(eventId, userEmail) pair, passed the presence and id-syntax checks, and
appended exactly one snapshot-carrying join document. -/
theorem joinEvent_shape (db : DB) (now : Int) (newId : String)
    (eventId userEmail : String)
    (hsucc : (joinEvent db now newId eventId userEmail).1.isOk = true) :
    ∃ ev, db.events.find? (fun x => x._id == eventId) = some ev ∧
      db.joins.find? (fun j =>
        j.eventId == ev._id && j.userEmail == userEmail) = none ∧
      eventId ≠ "" ∧ userEmail ≠ "" ∧ isValidObjectId eventId = true ∧
      (joinEvent db now newId eventId userEmail).2 =
        { db with joins := db.joins ++ [joinSnapshot newId now userEmail ev] } := by
  by_cases hpre : (eventId = "" ∨ userEmail = "")
  · simp [joinEvent, hpre, Resp.isOk] at hsucc
  · by_cases hv : isValidObjectId eventId = true
    · cases hf : db.events.find? (fun x => x._id == eventId) with
      | none => simp [joinEvent, hpre, hv, hf, Resp.isOk] at hsucc
      | some ev =>
        cases hjf : db.joins.find? (fun j =>
            j.eventId == ev._id && j.userEmail == userEmail) with
        | some j1 => simp [joinEvent, hpre, hv, hf, hjf, Resp.isOk] at hsucc
        | none =>
          push_neg at hpre
          exact ⟨ev, rfl, hjf, hpre.1, hpre.2, hv,
            by simp [joinEvent, hpre, hv, hf, hjf]⟩
    · simp [joinEvent, hpre, hv, Resp.isOk] at hsucc

/-- Claim C9: `list_events` returns all stored Events sorted in ascending
order of eventDate, and `list_upcoming_events` returns exactly those Events
whose eventDate is strictly greater than the current time, also sorted
ascending by eventDate. -/
theorem list_events_sorted (db : DB) (now : Int) :
    (listEvents db).Perm db.events ∧
    List.Sorted eventDateLE (listEvents db) ∧
    (∀ e : Event, e ∈ listUpcomingEvents db now ↔
      e ∈ db.events ∧ now < e.eventDate) ∧
    List.Sorted eventDateLE (listUpcomingEvents db now) := by
  refine ⟨List.perm_insertionSort _ _, List.sorted_insertionSort _ _, ?_,
    List.sorted_insertionSort _ _⟩
  intro e
  have hperm := List.perm_insertionSort eventDateLE
    (db.events.filter (fun e => decide (now < e.eventDate)))
  rw [listUpcomingEvents, hperm.mem_iff, List.mem_filter]
  simp

/-- Claim C7 (amended): the `distinct()`-based `GET /stats` revision returns
totalUsers equal to the cardinality of the set union of creator emails and
join user emails (case-sensitive); the aggregate-based revision agrees on
every state in which no stored email is the empty string (its
`.filter(Boolean)` step drops empty-string emails from the union). -/
theorem stats_totalUsers_union (db : DB) :
    (statsDistinct db).totalUsers = specTotalUsers db ∧
    ((∀ e ∈ db.events, e.creatorEmail ≠ "") →
      (∀ j ∈ db.joins, j.userEmail ≠ "") →
      (statsAgg db).totalUsers = specTotalUsers db) := by
  constructor
  · simp only [statsDistinct, specTotalUsers]
    rw [← List.card_toFinset, List.toFinset_append, dedup_toFinset,
      dedup_toFinset]
  · intro he hj
    have hfe : ((db.events.map (fun e => e.creatorEmail)).dedup.filter
        (fun s => !(s == ""))) = (db.events.map (fun e => e.creatorEmail)).dedup := by
      refine List.filter_eq_self.mpr ?_
      intro a ha
      obtain ⟨e, hedb, rfl⟩ := List.mem_map.mp (List.mem_dedup.mp ha)
      simpa using he e hedb
    have hfj : ((db.joins.map (fun j => j.userEmail)).dedup.filter
        (fun s => !(s == ""))) = (db.joins.map (fun j => j.userEmail)).dedup := by
      refine List.filter_eq_self.mpr ?_
      intro a ha
      obtain ⟨j, hjdb, rfl⟩ := List.mem_map.mp (List.mem_dedup.mp ha)
      simpa using hj j hjdb
    simp only [statsAgg, specTotalUsers, hfe, hfj]
    rw [← List.card_toFinset, List.toFinset_append, dedup_toFinset,
      dedup_toFinset]

theorem stats_totalUsers_union_witness :
    (statsDistinct dbEJ).totalUsers = specTotalUsers dbEJ ∧
    (statsAgg dbEJ).totalUsers = specTotalUsers dbEJ :=
  ⟨(stats_totalUsers_union dbEJ).1,
   (stats_totalUsers_union dbEJ).2 (by decide) (by decide)⟩

/-- Claim C7 counterexample: on a state whose single event has
creatorEmail = "", the aggregate-based `GET /stats` revision returns
totalUsers 0 while the set union of creator and participant emails has
cardinality 1, so the claim fails for that revision as stated. -/
theorem statsAgg_drops_empty_email :
    (statsAgg dbEmptyEmail).totalUsers = 0 ∧
    specTotalUsers dbEmptyEmail = 1 ∧
    (statsAgg dbEmptyEmail).totalUsers ≠ specTotalUsers dbEmptyEmail :=
  ⟨by decide, by rfl, by decide⟩

/-- Claim C10: for every id string that is not a syntactically valid store
ObjectId, get_event, update_event, delete_event and join_event fail with a
400 ValidationError (not NotFound) and leave all collections unchanged. -/
theorem invalid_id_validation (db : DB) (now : Int)
    (parseDate : String → Option Int) (nid r u : String) (id : String)
    (b : UpdateBody) (h : isValidObjectId id = false) :
    (getEvent db id).isValidation = true ∧
    (updateEvent db now parseDate id b).1.isValidation = true ∧
    (updateEvent db now parseDate id b).2 = db ∧
    (deleteEvent db id r).1.isValidation = true ∧
    (deleteEvent db id r).2 = db ∧
    (joinEvent db now nid id u).1.isValidation = true ∧
    (joinEvent db now nid id u).2 = db := by
  have hg : getEvent db id = .err 400 "Invalid event id." := by
    simp [getEvent, h]
  have hup : updateEvent db now parseDate id b =
      (.err 400 "Invalid event id.", db) := by
    simp [updateEvent, h]
  have hdel : deleteEvent db id r = (.err 400 "Invalid event id.", db) := by
    simp [deleteEvent, h]
  have hjoin : (joinEvent db now nid id u).1.isValidation = true ∧
      (joinEvent db now nid id u).2 = db := by
    by_cases hpre : (id = "" ∨ u = "")
    · have : joinEvent db now nid id u =
          (.err 400 "eventId and userEmail are required.", db) := by
        simp [joinEvent, hpre]
      rw [this]
      exact ⟨rfl, rfl⟩
    · have : joinEvent db now nid id u = (.err 400 "Invalid eventId.", db) := by
        simp [joinEvent, hpre, h]
      rw [this]
      exact ⟨rfl, rfl⟩
  exact ⟨by rw [hg]; rfl, by rw [hup]; rfl, by rw [hup],
    by rw [hdel]; rfl, by rw [hdel], hjoin.1, hjoin.2⟩

theorem invalid_id_validation_witness :
    isValidObjectId "zz" = false ∧
    (getEvent dbE "zz").isValidation = true ∧
    (updateEvent dbE 0 (fun _ => some 200) "zz" bodyAlice).2 = dbE ∧
    (joinEvent dbE 0 oid3 "zz" "carol@x.com").1.isValidation = true :=
  ⟨by decide,
   (invalid_id_validation dbE 0 (fun _ => some 200) oid3 "r@x.com"
     "carol@x.com" "zz" bodyAlice (by decide)).1,
   (invalid_id_validation dbE 0 (fun _ => some 200) oid3 "r@x.com"
     "carol@x.com" "zz" bodyAlice (by decide)).2.2.1,
   (invalid_id_validation dbE 0 (fun _ => some 200) oid3 "r@x.com"
     "carol@x.com" "zz" bodyAlice (by decide)).2.2.2.2.2.1⟩

/-- Claim C1 (amended): for every stored Event and every non-empty
requestorEmail different from its creatorEmail, update_event and
delete_event fail with Forbidden and leave all collections unchanged.  (An
empty requestorEmail instead fails the presence check with a 400
ValidationError — also leaving the collections unchanged — so the claim
does not hold for that one mismatched requestor value.) -/
theorem forbidden_on_creator_mismatch (db : DB) (now : Int)
    (parseDate : String → Option Int) (b : UpdateBody) (e : Event)
    (hnd : (db.events.map (fun x => x._id)).Nodup)
    (he : e ∈ db.events)
    (hv : isValidObjectId e._id = true)
    (hne : b.requestorEmail ≠ e.creatorEmail)
    (hr : b.requestorEmail ≠ "") :
    (updateEvent db now parseDate e._id b).1.isForbidden = true ∧
    (updateEvent db now parseDate e._id b).2 = db ∧
    (deleteEvent db e._id b.requestorEmail).1.isForbidden = true ∧
    (deleteEvent db e._id b.requestorEmail).2 = db := by
  have hf := find?_of_mem_nodup db.events e hnd he
  have hcu : updateEvent db now parseDate e._id b =
      (.err 403 "You are not allowed to update this event.", db) := by
    simp [updateEvent, hv, hr, hf, Ne.symm hne]
  have hcd : deleteEvent db e._id b.requestorEmail =
      (.err 403 "You are not allowed to delete this event.", db) := by
    simp [deleteEvent, hv, hr, hf, Ne.symm hne]
  exact ⟨by rw [hcu]; rfl, by rw [hcu], by rw [hcd]; rfl, by rw [hcd]⟩

theorem forbidden_on_creator_mismatch_witness :
    (updateEvent dbE 0 (fun _ => some 200) ev1._id bodyBob).1.isForbidden = true ∧
    (updateEvent dbE 0 (fun _ => some 200) ev1._id bodyBob).2 = dbE ∧
    (deleteEvent dbE ev1._id bodyBob.requestorEmail).1.isForbidden = true ∧
    (deleteEvent dbE ev1._id bodyBob.requestorEmail).2 = dbE :=
  forbidden_on_creator_mismatch dbE 0 (fun _ => some 200) bodyBob ev1
    (by decide) (by decide) (by decide) (by decide) (by decide)

/-- Claim C1 counterexample: the empty requestorEmail "" differs from the
stored creator "alice@x.com", yet update_event and delete_event return the
400 presence-check ValidationError, not Forbidden. -/
theorem empty_requestor_not_forbidden :
    ("" ≠ ev1.creatorEmail) ∧
    (updateEvent dbE 0 (fun _ => some 200) ev1._id bodyEmptyReq).1.isForbidden = false ∧
    (updateEvent dbE 0 (fun _ => some 200) ev1._id bodyEmptyReq).1.isValidation = true ∧
    (deleteEvent dbE ev1._id "").1.isForbidden = false ∧
    (deleteEvent dbE ev1._id "").1.isValidation = true :=
  ⟨by decide, by decide, by decide, by decide, by decide⟩

/-- Claim C2: set_user_role fails with ValidationError whenever the new
role is outside the enum; otherwise with Forbidden whenever requestorEmail
does not resolve to an existing admin User; otherwise with NotFound
whenever targetEmail resolves to no User; and in every failure case the
users collection is unchanged. -/
theorem setUserRole_errors (db : DB) (now : Int)
    (target role requestor : String) :
    ((¬(role = "user" ∨ role = "admin")) →
      (setUserRole db now target role requestor).1.isValidation = true ∧
      (setUserRole db now target role requestor).2 = db) ∧
    ((∀ ru, db.users.find? (fun x => x.email == requestor) = some ru →
        ru.role ≠ "admin") →
      (role = "user" ∨ role = "admin") →
      (setUserRole db now target role requestor).1.isForbidden = true ∧
      (setUserRole db now target role requestor).2 = db) ∧
    (∀ ru, db.users.find? (fun x => x.email == requestor) = some ru →
      ru.role = "admin" →
      (role = "user" ∨ role = "admin") →
      db.users.find? (fun x => x.email == target) = none →
      (setUserRole db now target role requestor).1.isNotFound = true ∧
      (setUserRole db now target role requestor).2 = db) := by
  refine ⟨?_, ?_, ?_⟩
  · intro hrole
    have hres : setUserRole db now target role requestor =
        (.err 400 "Valid role (user or admin) is required.", db) := by
      simp [setUserRole, hrole]
    rw [hres]
    exact ⟨rfl, rfl⟩
  · intro hnadm henum
    cases hfind : db.users.find? (fun x => x.email == requestor) with
    | none =>
      have hres : setUserRole db now target role requestor =
          (.err 403 "Only admins can update user roles.", db) := by
        simp [setUserRole, hfind]
        rcases henum with h | h <;> subst h <;> exact ⟨by decide, by decide⟩
      rw [hres]
      exact ⟨rfl, rfl⟩
    | some ru =>
      have hna := hnadm ru hfind
      have hres : setUserRole db now target role requestor =
          (.err 403 "Only admins can update user roles.", db) := by
        simp [setUserRole, hfind, hna]
        rcases henum with h | h <;> subst h <;> exact ⟨by decide, by decide⟩
      rw [hres]
      exact ⟨rfl, rfl⟩
  · intro ru hfind hadm henum htarget
    have hupd := updateFirstUser_none db.users target
      (fun u => { u with role := role, updatedAt := now }) htarget
    have hres : setUserRole db now target role requestor =
        (.err 404 "User not found.", db) := by
      simp [setUserRole, hfind, hadm, hupd]
      rcases henum with h | h <;> subst h <;> exact ⟨by decide, by decide⟩
    rw [hres]
    exact ⟨rfl, rfl⟩

theorem setUserRole_errors_witness :
    ((setUserRole dbU 5 "u@x.com" "moderator" "root@x.com").1.isValidation = true ∧
     (setUserRole dbU 5 "u@x.com" "moderator" "root@x.com").2 = dbU) ∧
    ((setUserRole dbU 5 "u@x.com" "admin" "u@x.com").1.isForbidden = true ∧
     (setUserRole dbU 5 "u@x.com" "admin" "u@x.com").2 = dbU) ∧
    ((setUserRole dbU 5 "ghost@x.com" "admin" "root@x.com").1.isNotFound = true ∧
     (setUserRole dbU 5 "ghost@x.com" "admin" "root@x.com").2 = dbU) :=
  ⟨(setUserRole_errors dbU 5 "u@x.com" "moderator" "root@x.com").1 (by decide),
   (setUserRole_errors dbU 5 "u@x.com" "admin" "u@x.com").2.1
     (by
       intro ru h
       have hq : List.find? (fun x => x.email == "u@x.com") dbU.users =
           some plainU := by decide
       rw [hq] at h
       injection h with h2
       rw [← h2]
       decide)
     (Or.inr rfl),
   (setUserRole_errors dbU 5 "ghost@x.com" "admin" "root@x.com").2.2 adminU
     (by decide) rfl (Or.inr rfl) (by decide)⟩


/-- Claim C3: after a successful join_event for a pair (eventId, userEmail),
a second join_event call with the identical pair fails with Conflict and
inserts no Join row (the state is unchanged by the second call); moreover
every join_event call preserves the at-most-one-Join-per-(eventId,
userEmail) invariant, so in the sequential model at most one Join exists
per pair. -/
theorem duplicate_join_conflict (db : DB) (now now2 : Int)
    (nid nid2 eventId userEmail : String)
    (hsucc : (joinEvent db now nid eventId userEmail).1.isOk = true) :
    ((joinEvent (joinEvent db now nid eventId userEmail).2 now2 nid2
        eventId userEmail).1.isConflict = true ∧
     (joinEvent (joinEvent db now nid eventId userEmail).2 now2 nid2
        eventId userEmail).2 = (joinEvent db now nid eventId userEmail).2) ∧
    (∀ (db2 : DB) (n2 : Int) (i2 e2 u2 : String),
      atMostOneJoinPerPair db2.joins →
      atMostOneJoinPerPair (joinEvent db2 n2 i2 e2 u2).2.joins) := by
  obtain ⟨ev, hf, hjf, hid, hu, hv, hdb⟩ :=
    joinEvent_shape db now nid eventId userEmail hsucc
  constructor
  · rw [hdb]
    have hres : joinEvent
        { db with joins := db.joins ++ [joinSnapshot nid now userEmail ev] }
        now2 nid2 eventId userEmail =
        (.err 400 conflictMessage,
         { db with joins := db.joins ++ [joinSnapshot nid now userEmail ev] }) := by
      simp [joinEvent, hid, hu, hv, hf, hjf, List.find?_append, joinSnapshot]
    rw [hres]
    exact ⟨rfl, rfl⟩
  · intro db2 n2 i2 e2 u2 hpair
    by_cases hpre2 : (e2 = "" ∨ u2 = "")
    · simpa [joinEvent, hpre2] using hpair
    · by_cases hv2 : isValidObjectId e2 = true
      · cases hf2 : db2.events.find? (fun x => x._id == e2) with
        | none => simpa [joinEvent, hpre2, hv2, hf2] using hpair
        | some ev2 =>
          cases hjf2 : db2.joins.find? (fun j =>
              j.eventId == ev2._id && j.userEmail == u2) with
          | some j1 => simpa [joinEvent, hpre2, hv2, hf2, hjf2] using hpair
          | none =>
            have hstep : (joinEvent db2 n2 i2 e2 u2).2.joins =
                db2.joins ++ [joinSnapshot i2 n2 u2 ev2] := by
              simp [joinEvent, hpre2, hv2, hf2, hjf2]
            simp only [atMostOneJoinPerPair] at hpair ⊢
            rw [hstep]
            refine List.pairwise_append.mpr
              ⟨hpair, List.pairwise_singleton _ _, ?_⟩
            intro a ha b hb
            rw [List.mem_singleton] at hb
            subst hb
            rw [List.find?_eq_none] at hjf2
            intro hcon
            refine hjf2 a ha ?_
            have h1 := hcon.1
            have h2 := hcon.2
            simp only [joinSnapshot] at h1 h2
            simp [h1, h2]
      · simpa [joinEvent, hpre2, hv2] using hpair

theorem duplicate_join_conflict_witness :
    ((joinEvent (joinEvent dbE 7 oid2 oid1 "carol@x.com").2 8 oid3 oid1
        "carol@x.com").1.isConflict = true ∧
     (joinEvent (joinEvent dbE 7 oid2 oid1 "carol@x.com").2 8 oid3 oid1
        "carol@x.com").2 = (joinEvent dbE 7 oid2 oid1 "carol@x.com").2) ∧
    (∀ (db2 : DB) (n2 : Int) (i2 e2 u2 : String),
      atMostOneJoinPerPair db2.joins →
      atMostOneJoinPerPair (joinEvent db2 n2 i2 e2 u2).2.joins) :=
  duplicate_join_conflict dbE 7 8 oid2 oid3 oid1 "carol@x.com" (by decide)

/-- Claim C4: a successful creator delete removes the stored Event and
every Join whose eventId references it, so list_joined_events afterwards
returns zero Joins referencing that id for every user. -/
theorem delete_event_cascades (db : DB) (e : Event)
    (hnd : (db.events.map (fun x => x._id)).Nodup)
    (_he : e ∈ db.events)
    (hsucc : (deleteEvent db e._id e.creatorEmail).1.isOk = true) :
    e ∉ (deleteEvent db e._id e.creatorEmail).2.events ∧
    (∀ j ∈ (deleteEvent db e._id e.creatorEmail).2.joins, j.eventId ≠ e._id) ∧
    (∀ (u : String) (js : List Join),
      listJoinedEvents (deleteEvent db e._id e.creatorEmail).2 u = .ok js →
      ∀ j ∈ js, j.eventId ≠ e._id) := by
  obtain ⟨e', hf', hc', hdbE, hdbJ, hdbU⟩ :=
    deleteEvent_shape db e._id e.creatorEmail hsucc
  have hevents : ∀ x ∈ (deleteEvent db e._id e.creatorEmail).2.events,
      x._id ≠ e._id := by
    rw [hdbE]
    exact deleteFirstEvent_no_id db.events e._id hnd
  have hjoins : ∀ j ∈ (deleteEvent db e._id e.creatorEmail).2.joins,
      j.eventId ≠ e._id := by
    rw [hdbJ]
    intro j hj
    have hjj := (List.mem_filter.mp hj).2
    simpa using hjj
  refine ⟨fun hmem => hevents e hmem rfl, hjoins, ?_⟩
  intro u js hok j hj
  by_cases hu : u = ""
  · simp [listJoinedEvents, hu] at hok
  · simp only [listJoinedEvents, if_neg hu] at hok
    injection hok with hjs
    rw [← hjs] at hj
    have hp := (List.perm_insertionSort joinDateLE _).mem_iff.mp hj
    exact hjoins j (List.mem_filter.mp hp).1

theorem delete_event_cascades_witness :
    ev1 ∉ (deleteEvent dbEJ ev1._id ev1.creatorEmail).2.events ∧
    (∀ j ∈ (deleteEvent dbEJ ev1._id ev1.creatorEmail).2.joins,
      j.eventId ≠ ev1._id) ∧
    (∀ (u : String) (js : List Join),
      listJoinedEvents (deleteEvent dbEJ ev1._id ev1.creatorEmail).2 u = .ok js →
      ∀ j ∈ js, j.eventId ≠ ev1._id) :=
  delete_event_cascades dbEJ ev1 (by decide) (by decide) (by decide)

/-- Claim C6: a successful creator update overwrites only the six mutable
fields of the stored event in place: its position, id, creatorEmail and
createdAt are preserved, every other Event is untouched, and the joins and
users collections are unchanged. -/
theorem update_event_frame (db : DB) (now : Int)
    (parseDate : String → Option Int) (b : UpdateBody) (e : Event)
    (hnd : (db.events.map (fun x => x._id)).Nodup)
    (he : e ∈ db.events)
    (hsucc : (updateEvent db now parseDate e._id b).1.isOk = true) :
    ∃ d l1 l2,
      parseDate b.eventDate = some d ∧ now < d ∧
      db.events = l1 ++ e :: l2 ∧
      (updateEvent db now parseDate e._id b).2.events =
        l1 ++ ({ e with
                   title := b.title, description := b.description,
                   eventType := b.eventType, thumbnail := b.thumbnail,
                   location := b.location, eventDate := d }) :: l2 ∧
      (updateEvent db now parseDate e._id b).2.joins = db.joins ∧
      (updateEvent db now parseDate e._id b).2.users = db.users := by
  obtain ⟨e', d, hf', hd, hlt, hreq, hdbE, hdbJ, hdbU⟩ :=
    updateEvent_shape db now parseDate e._id b hsucc
  have hf := find?_of_mem_nodup db.events e hnd he
  obtain ⟨l1, l2, hl, hu⟩ := updateFirstEvent_decomp db.events e._id (fun x =>
    { x with title := b.title, description := b.description,
             eventType := b.eventType, thumbnail := b.thumbnail,
             location := b.location, eventDate := d }) e hf
  refine ⟨d, l1, l2, hd, hlt, hl, ?_, hdbJ, hdbU⟩
  rw [hdbE, hu]

theorem update_event_frame_witness :
    ∃ d l1 l2,
      (some 200 : Option Int) = some d ∧ (0 : Int) < d ∧
      dbE.events = l1 ++ ev1 :: l2 ∧
      (updateEvent dbE 0 (fun _ => some 200) ev1._id bodyAlice).2.events =
        l1 ++ ({ ev1 with
                   title := bodyAlice.title,
                   description := bodyAlice.description,
                   eventType := bodyAlice.eventType,
                   thumbnail := bodyAlice.thumbnail,
                   location := bodyAlice.location, eventDate := d }) :: l2 ∧
      (updateEvent dbE 0 (fun _ => some 200) ev1._id bodyAlice).2.joins =
        dbE.joins ∧
      (updateEvent dbE 0 (fun _ => some 200) ev1._id bodyAlice).2.users =
        dbE.users :=
  update_event_frame dbE 0 (fun _ => some 200) bodyAlice ev1
    (by decide) (by decide) (by decide)

/-- Claim C5 (amended): create_event rejects an unparseable or non-future
eventDate with a 400 ValidationError and persists nothing, for every input;
update_event does so for every call that passes its earlier id, existence
and ownership checks (a call failing an earlier check returns that check's
own error, still persisting nothing); and every successful call stores an
eventDate strictly after the time of the call. -/
theorem event_date_validation (db : DB) (now : Int)
    (parseDate : String → Option Int) (nid : String)
    (bc : EventBody) (b : UpdateBody) (e : Event) :
    ((parseDate bc.eventDate = none ∨
        (∃ d, parseDate bc.eventDate = some d ∧ d ≤ now)) →
      (createEvent db now parseDate nid bc).1.isValidation = true ∧
      (createEvent db now parseDate nid bc).2 = db) ∧
    ((createEvent db now parseDate nid bc).1.isOk = true →
      ∃ ev, (createEvent db now parseDate nid bc).2.events =
          db.events ++ [ev] ∧ now < ev.eventDate) ∧
    ((db.events.map (fun x => x._id)).Nodup → e ∈ db.events →
      isValidObjectId e._id = true →
      b.requestorEmail = e.creatorEmail → b.requestorEmail ≠ "" →
      (parseDate b.eventDate = none ∨
        (∃ d, parseDate b.eventDate = some d ∧ d ≤ now)) →
      (updateEvent db now parseDate e._id b).1.isValidation = true ∧
      (updateEvent db now parseDate e._id b).2 = db) ∧
    ((updateEvent db now parseDate e._id b).1.isOk = true →
      ∃ ev, ev ∈ (updateEvent db now parseDate e._id b).2.events ∧
        now < ev.eventDate) := by
  refine ⟨?_, ?_, ?_, ?_⟩
  · intro hbad
    by_cases hp : (bc.title = "" ∨ bc.description = "" ∨ bc.eventType = "" ∨
        bc.thumbnail = "" ∨ bc.location = "" ∨ bc.eventDate = "" ∨
        bc.creatorEmail = "")
    · have hres : createEvent db now parseDate nid bc =
          (.err 400 "All fields are required.", db) := by
        simp [createEvent, hp]
      rw [hres]
      exact ⟨rfl, rfl⟩
    · rcases hbad with hnone | ⟨d, hd, hle⟩
      · have hres : createEvent db now parseDate nid bc =
            (.err 400 "Invalid event date.", db) := by
          simp [createEvent, hp, hnone]
        rw [hres]
        exact ⟨rfl, rfl⟩
      · have hres : createEvent db now parseDate nid bc =
            (.err 400 "Event date must be a future date.", db) := by
          simp [createEvent, hp, hd, hle]
        rw [hres]
        exact ⟨rfl, rfl⟩
  · intro hsucc
    obtain ⟨d, hd, hlt, hev⟩ := createEvent_shape db now parseDate nid bc hsucc
    exact ⟨_, hev, hlt⟩
  · intro hnd he hv hro hr hbad
    have hf := find?_of_mem_nodup db.events e hnd he
    have hr2 : e.creatorEmail ≠ "" := by
      rw [← hro]
      exact hr
    by_cases hp : (b.title = "" ∨ b.description = "" ∨ b.eventType = "" ∨
        b.thumbnail = "" ∨ b.location = "" ∨ b.eventDate = "")
    · have hres : updateEvent db now parseDate e._id b =
          (.err 400 "All fields are required.", db) := by
        simp [updateEvent, hv, hf, hro, hr2, hp]
      rw [hres]
      exact ⟨rfl, rfl⟩
    · rcases hbad with hnone | ⟨d, hd, hle⟩
      · have hres : updateEvent db now parseDate e._id b =
            (.err 400 "Invalid event date.", db) := by
          simp [updateEvent, hv, hf, hro, hr2, hp, hnone]
        rw [hres]
        exact ⟨rfl, rfl⟩
      · have hres : updateEvent db now parseDate e._id b =
            (.err 400 "Event date must be a future date.", db) := by
          simp [updateEvent, hv, hf, hro, hr2, hp, hd, hle]
        rw [hres]
        exact ⟨rfl, rfl⟩
  · intro hsucc
    obtain ⟨e', d, hf', hd, hlt, hreq, hdbE, hdbJ, hdbU⟩ :=
      updateEvent_shape db now parseDate e._id b hsucc
    obtain ⟨l1, l2, hl, hu⟩ := updateFirstEvent_decomp db.events e._id (fun x =>
      { x with title := b.title, description := b.description,
               eventType := b.eventType, thumbnail := b.thumbnail,
               location := b.location, eventDate := d }) e' hf'
    refine ⟨{ e' with
                title := b.title, description := b.description,
                eventType := b.eventType, thumbnail := b.thumbnail,
                location := b.location, eventDate := d }, ?_, hlt⟩
    rw [hdbE, hu]
    simp

theorem event_date_validation_witness :
    ((createEvent dbE 0 (fun _ => none) oid3 bcW).1.isValidation = true ∧
     (createEvent dbE 0 (fun _ => none) oid3 bcW).2 = dbE) ∧
    (∃ ev, (createEvent dbE 0 (fun _ => some 200) oid3 bcW).2.events =
        dbE.events ++ [ev] ∧ (0 : Int) < ev.eventDate) ∧
    ((updateEvent dbE 0 (fun _ => none) ev1._id bodyAlice).1.isValidation = true ∧
     (updateEvent dbE 0 (fun _ => none) ev1._id bodyAlice).2 = dbE) ∧
    (∃ ev, ev ∈ (updateEvent dbE 0 (fun _ => some 200) ev1._id
        bodyAlice).2.events ∧ (0 : Int) < ev.eventDate) :=
  ⟨(event_date_validation dbE 0 (fun _ => none) oid3 bcW bodyAlice ev1).1
     (Or.inl rfl),
   (event_date_validation dbE 0 (fun _ => some 200) oid3 bcW bodyAlice ev1).2.1
     (by decide),
   (event_date_validation dbE 0 (fun _ => none) oid3 bcW bodyAlice ev1).2.2.1
     (by decide) (by decide) (by decide) (by decide) (by decide) (Or.inl rfl),
   (event_date_validation dbE 0 (fun _ => some 200) oid3 bcW bodyAlice
     ev1).2.2.2 (by decide)⟩

/-- Claim C5 counterexample: an update_event call whose eventDate is
unparseable (the parser returns none on every input) but whose valid id
matches no stored Event fails with NotFound (404), not ValidationError, so
the claim's "for every input" form fails for update_event. -/
theorem update_bad_date_not_validation :
    ((fun _ : String => (none : Option Int)) bodyBob.eventDate = none) ∧
    (updateEvent emptyDb 0 (fun _ => none) oid1 bodyBob).1.isNotFound = true ∧
    (updateEvent emptyDb 0 (fun _ => none) oid1 bodyBob).1.isValidation = false :=
  ⟨rfl, by decide, by decide⟩

/-- Claim C8: sync_user never writes the role field on its update path, and
it is idempotent for an existing user: a second call with the same email,
displayName and photoURL leaves the stored user's role, displayName,
photoURL and createdAt unchanged — only updatedAt advances to the second
call's time. -/
theorem syncUser_idempotent (db : DB) (t1 t2 : Int)
    (email dn purl : String) (he : email ≠ "") :
    (∀ u, db.users.find? (fun x => x.email == email) = some u →
      ∃ u2, (syncUser db t1 email dn purl).2.users.find?
          (fun x => x.email == email) = some u2 ∧
        u2.role = u.role ∧ u2.createdAt = u.createdAt) ∧
    (∃ u1, (syncUser db t1 email dn purl).2.users.find?
        (fun x => x.email == email) = some u1 ∧
      (syncUser (syncUser db t1 email dn purl).2 t2 email dn purl).2.users.find?
        (fun x => x.email == email) = some { u1 with updatedAt := t2 }) := by
  have hupd : ∀ (db' : DB) (t : Int) (u' : User),
      db'.users.find? (fun x => x.email == email) = some u' →
      (syncUser db' t email dn purl).2.users =
        (updateFirstUser db'.users email (fun u =>
          { u with updatedAt := t,
                   displayName := if dn ≠ "" then dn else u.displayName,
                   photoURL := if purl ≠ "" then purl else u.photoURL })).1 := by
    intro db' t u' hfind'
    simp [syncUser, he, hfind']
  cases hfind : db.users.find? (fun x => x.email == email) with
  | none =>
    have h1u : (syncUser db t1 email dn purl).2.users = db.users ++
        [{ email := email, displayName := dn, photoURL := purl,
           role := "user", createdAt := t1, updatedAt := t1 }] := by
      simp [syncUser, he, hfind]
    have hfind1 : (syncUser db t1 email dn purl).2.users.find?
        (fun x => x.email == email) =
        some { email := email, displayName := dn, photoURL := purl,
               role := "user", createdAt := t1, updatedAt := t1 } := by
      rw [h1u]
      exact find?_append_of_none _ _ _ hfind (by simp)
    have h2u := hupd (syncUser db t1 email dn purl).2 t2 _ hfind1
    have hff := updateFirstUser_find? (syncUser db t1 email dn purl).2.users
      email (fun u =>
        { u with updatedAt := t2,
                 displayName := if dn ≠ "" then dn else u.displayName,
                 photoURL := if purl ≠ "" then purl else u.photoURL })
      (fun _ => rfl)
    constructor
    · intro u hu
      simp at hu
    · refine ⟨_, hfind1, ?_⟩
      rw [h2u, hff, hfind1]
      simp
  | some u0 =>
    have h1u := hupd db t1 u0 hfind
    have hff1 := updateFirstUser_find? db.users email (fun u =>
      { u with updatedAt := t1,
               displayName := if dn ≠ "" then dn else u.displayName,
               photoURL := if purl ≠ "" then purl else u.photoURL })
      (fun _ => rfl)
    have hfind1 : (syncUser db t1 email dn purl).2.users.find?
        (fun x => x.email == email) = some ((fun u =>
          { u with updatedAt := t1,
                   displayName := if dn ≠ "" then dn else u.displayName,
                   photoURL := if purl ≠ "" then purl else u.photoURL }) u0) := by
      rw [h1u, hff1, hfind]
      rfl
    have h2u := hupd (syncUser db t1 email dn purl).2 t2 _ hfind1
    have hff2 := updateFirstUser_find? (syncUser db t1 email dn purl).2.users
      email (fun u =>
        { u with updatedAt := t2,
                 displayName := if dn ≠ "" then dn else u.displayName,
                 photoURL := if purl ≠ "" then purl else u.photoURL })
      (fun _ => rfl)
    constructor
    · intro u hu
      have huu : u = u0 := (Option.some.inj hu).symm
      subst huu
      exact ⟨_, hfind1, rfl, rfl⟩
    · refine ⟨_, hfind1, ?_⟩
      rw [h2u, hff2, hfind1]
      by_cases hdn : dn = "" <;> by_cases hpu : purl = "" <;> simp [hdn, hpu]

theorem syncUser_idempotent_witness :
    (∃ u2, (syncUser dbU 9 "u@x.com" "U2" "").2.users.find?
        (fun x => x.email == "u@x.com") = some u2 ∧
      u2.role = plainU.role ∧ u2.createdAt = plainU.createdAt) ∧
    (∃ u1, (syncUser dbU 9 "u@x.com" "U2" "").2.users.find?
        (fun x => x.email == "u@x.com") = some u1 ∧
      (syncUser (syncUser dbU 9 "u@x.com" "U2" "").2 10 "u@x.com" "U2"
          "").2.users.find? (fun x => x.email == "u@x.com") =
        some { u1 with updatedAt := 10 }) :=
  ⟨(syncUser_idempotent dbU 9 10 "u@x.com" "U2" "" (by decide)).1 plainU
     (by decide),
   (syncUser_idempotent dbU 9 10 "u@x.com" "U2" "" (by decide)).2⟩
